import Mathlib

/-!
Verification of the envelope-budget API's balance-consistency logic.

The source is an Express/Sequelize application. We give a shallow embedding:
- the Ledger Store (the database) is a `Store` value: a list of `Envelope`
  rows and a list of `Transaction` rows;
- each Express route handler becomes a Lean function from the request fields
  and the current store to a result (the HTTP outcome) paired with the store
  after the handler ran;
- JavaScript request values that may fail the `typeof x !== 'number'` check
  are modelled by `JsVal`; JS truthiness of a string is `≠ ""`, of a numeric
  id is `≠ 0`;
- the `FLOAT` balance column is modelled by `Rat` (exact arithmetic on the
  decimal amounts the API deals in);
- a fallible persistence call (`await env.save()`, `await Transaction.create`,
  `await t.commit()`) is modelled by an explicit failure-point parameter
  saying which call, if any, throws; the handler's `try/catch` becomes the
  corresponding branch of the embedding.
-/

/-- An `Envelope` row: `Envelope.init({ name: STRING, balance: FLOAT })`
plus its primary key. -/
structure Envelope where
  id : Nat
  name : String
  balance : Rat
deriving Repr, DecidableEq

/-- A `Transaction` row: `{ date, amount, recipient, envelopeId }` plus its
primary key. Dates are modelled as integer timestamps. -/
structure Txn where
  id : Nat
  date : Int
  amount : Rat
  recipient : String
  envelopeId : Nat
deriving Repr, DecidableEq

/-- The Ledger Store: the two record sets. -/
structure Store where
  envelopes : List Envelope
  transactions : List Txn
deriving Repr, DecidableEq

/-- A JavaScript request value, as far as the handlers' `typeof` checks
inspect it: a number, or something that is not a number. -/
inductive JsVal where
  | num (q : Rat)
  | str (sv : String)
  | undef
deriving Repr, DecidableEq

/-- `Envelope.findByPk(id)`. -/
def findEnvelope (s : Store) (i : Nat) : Option Envelope :=
  s.envelopes.find? (fun e => e.id = i)

/-- `Transaction.findByPk(id)`. -/
def findTxn (s : Store) (i : Nat) : Option Txn :=
  s.transactions.find? (fun t => t.id = i)

/-- `envelope.save()`: write the instance back to its row. -/
def saveEnvelope (s : Store) (e : Envelope) : Store :=
  { s with envelopes := s.envelopes.map (fun x => if x.id = e.id then e else x) }

/-- `Transaction.create({...})`: insert a new row. -/
def insertTxn (s : Store) (t : Txn) : Store :=
  { s with transactions := s.transactions ++ [t] }

/-- `transaction.destroy()`: delete the row with the transaction's key. -/
def removeTxn (s : Store) (i : Nat) : Store :=
  { s with transactions := s.transactions.filter (fun t => ¬ t.id = i) }

/-- Outcome of `POST /transactions`. `badRequest` is the 400 "Invalid
transaction data", `notFound` the 404 "Envelope not found", `insufficient`
the 400 "Insufficient funds in envelope", `created` the 201 with the new
row, `serverError` the 500 from the `catch`. -/
inductive CreateTxnResult where
  | badRequest
  | notFound
  | insufficient
  | created (t : Txn)
  | serverError
deriving Repr, DecidableEq

/-- Which persistence call inside `POST /transactions` throws, if any.
The route has no Ledger Store transaction scope: `envelope.save()` and
`Transaction.create(...)` are two independent awaits. -/
inductive TxnFail where
  | ok
  | atEnvSave
  | atTxnInsert
deriving Repr, DecidableEq

/-- `router.post('/')` of the transactions router.

```js
const transactionDate = date ? new Date(date) : new Date();
if (!transactionDate || typeof amount !== 'number' || !recipient || !envelopeId)
  return 400;
const envelope = await Envelope.findByPk(envelopeId);
if (!envelope) return 404;
if (envelope.balance < amount) return 400 'Insufficient funds';
envelope.balance -= amount;
await envelope.save();
const transaction = await Transaction.create({date, amount, recipient, envelopeId});
return 201 transaction;
```

`newId` is the primary key the store assigns to the inserted row; `date` is
the resolved `transactionDate` (a `new Date(...)` object is always truthy,
so the `!transactionDate` disjunct never fires). If `envelope.save()`
throws, nothing was written; if `Transaction.create` throws, the already
completed `envelope.save()` stays in effect — there is no enclosing scope
to undo it. -/
def createTransaction (s : Store) (newId : Nat) (date : Int) (amount : JsVal)
    (recipient : String) (envelopeId : Nat) (f : TxnFail) :
    CreateTxnResult × Store :=
  match amount with
  | .num a =>
    if recipient = "" ∨ envelopeId = 0 then (.badRequest, s)
    else
      match findEnvelope s envelopeId with
      | none => (.notFound, s)
      | some env =>
        if env.balance < a then (.insufficient, s)
        else
          match f with
          | .atEnvSave => (.serverError, s)
          | .atTxnInsert =>
            (.serverError, saveEnvelope s { env with balance := env.balance - a })
          | .ok =>
            let s1 := saveEnvelope s { env with balance := env.balance - a }
            let t : Txn :=
              { id := newId, date := date, amount := a,
                recipient := recipient, envelopeId := envelopeId }
            (.created t, insertTxn s1 t)
  | _ => (.badRequest, s)

/-- Outcome of `DELETE /transactions/:id`. `txnNotFound` is the 404
"Transaction not found", `envNotFound` the 404 "Associated envelope not
found", `deleted` the 200. -/
inductive DeleteTxnResult where
  | txnNotFound
  | envNotFound
  | deleted
deriving Repr, DecidableEq

/-- `router.delete('/:id')` of the transactions router.

```js
const transaction = await Transaction.findByPk(transactionId);
if (!transaction) return 404 'Transaction not found';
const envelope = await Envelope.findByPk(transaction.envelopeId);
if (!envelope) return 404 'Associated envelope not found';
envelope.balance += transaction.amount;
await envelope.save();
await transaction.destroy();
return 200;
``` -/
def deleteTransaction (s : Store) (txnId : Nat) : DeleteTxnResult × Store :=
  match findTxn s txnId with
  | none => (.txnNotFound, s)
  | some t =>
    match findEnvelope s t.envelopeId with
    | none => (.envNotFound, s)
    | some env =>
      let s1 := saveEnvelope s { env with balance := env.balance + t.amount }
      (.deleted, removeTxn s1 txnId)

/-- `a.date ≥ b.date`: the comparison behind `order: [['date', 'DESC']]`. -/
def dateDesc (a b : Txn) : Prop := b.date ≤ a.date

instance : DecidableRel dateDesc := fun a b => inferInstanceAs (Decidable (b.date ≤ a.date))

instance : IsTotal Txn dateDesc := ⟨fun a b => Int.le_total b.date a.date⟩

instance : IsTrans Txn dateDesc := ⟨fun _ _ _ h1 h2 => le_trans h2 h1⟩

/-- `router.get('/envelope/:envelopeId')`:
`Transaction.findAll({ where: { envelopeId }, order: [['date', 'DESC']] })` —
the rows whose `envelopeId` matches, sorted by `date` descending. -/
def listByEnvelope (s : Store) (envelopeId : Nat) : List Txn :=
  List.insertionSort dateDesc
    (s.transactions.filter (fun t => t.envelopeId = envelopeId))

/-- Outcome of `POST /envelopes`. -/
inductive CreateEnvResult where
  | badRequest
  | created (e : Envelope)
deriving Repr, DecidableEq

/-- `router.post('/')` of the envelopes router:
`if (!name || typeof balance !== 'number' || balance < 0) return 400;`
then `Envelope.create({name, balance})`, 201. `newId` is the key the store
assigns. -/
def createEnvelope (s : Store) (newId : Nat) (name : String) (balance : Rat) :
    CreateEnvResult × Store :=
  if name = "" ∨ balance < 0 then (.badRequest, s)
  else
    let e : Envelope := { id := newId, name := name, balance := balance }
    (.created e, { s with envelopes := s.envelopes ++ [e] })

/-- Outcome of `PUT /envelopes/:id`. -/
inductive UpdateEnvResult where
  | notFound
  | badRequest
  | updated (e : Envelope)
deriving Repr, DecidableEq

/-- `router.put('/:id')` of the envelopes router.

```js
const envelope = await Envelope.findByPk(req.params.id);
if (!envelope) return 404;
if (name !== undefined) envelope.name = name;
if (balance !== undefined) {
  if (typeof balance !== 'number' || balance < 0) return 400;
  envelope.balance = balance;
}
await envelope.save();
return 200 envelope;
```

An invalid balance returns before `save()`, so an in-memory name assignment
on that path is never persisted. -/
def updateEnvelope (s : Store) (i : Nat) (name : Option String)
    (balance : Option Rat) : UpdateEnvResult × Store :=
  match findEnvelope s i with
  | none => (.notFound, s)
  | some env =>
    match balance with
    | some b =>
      if b < 0 then (.badRequest, s)
      else
        let env2 : Envelope := { env with name := name.getD env.name, balance := b }
        (.updated env2, saveEnvelope s env2)
    | none =>
      let env2 : Envelope := { env with name := name.getD env.name }
      (.updated env2, saveEnvelope s env2)

/-- State of the Ledger Store transaction scope opened by
`Envelope.sequelize.transaction()`: still open, committed, or rolled back. -/
inductive ScopeState where
  | opened
  | committed
  | rolledBack
deriving Repr, DecidableEq

/-- Which awaited call inside `POST /envelopes/transfer` throws, if any. -/
inductive TransferFail where
  | ok
  | atSaveFrom
  | atSaveTo
  | atCommit
deriving Repr, DecidableEq

/-- Result of `POST /envelopes/transfer`: HTTP status, the state the scope
was left in (`none` when validation failed before the scope was opened),
and the durable store. A `save({transaction: t})` stages its write inside
the scope; only `t.commit()` makes the staged writes durable, so on the
`catch` path (status 500) the durable store is unchanged — but the code
never calls `t.rollback()` there, leaving the scope `opened`. -/
structure TransferResult where
  status : Nat
  scope : Option ScopeState
  store : Store
deriving Repr, DecidableEq

/-- `router.post('/transfer')` of the envelopes router.

```js
if (typeof fromId !== 'number' || typeof toId !== 'number' ||
    typeof amount !== 'number' || amount <= 0) return 400;
const t = await Envelope.sequelize.transaction();
try {
  const fromEnvelope = await Envelope.findByPk(fromId);
  const toEnvelope = await Envelope.findByPk(toId);
  if (!fromEnvelope || !toEnvelope) { await t.rollback(); return 404; }
  if (fromEnvelope.balance < amount) { await t.rollback(); return 400; }
  fromEnvelope.balance -= amount;
  toEnvelope.balance += amount;
  await fromEnvelope.save({ transaction: t });
  await toEnvelope.save({ transaction: t });
  await t.commit();
  return 200;
} catch (err) { return 500; }
```

When `fromId = toId`, `findByPk` returns two independent instances of the
same row, so `toEnvelope.balance += amount` starts from the original
balance and the second `save` overwrites the first. The ids and the amount
are typed here, standing for the requests that pass the three `typeof`
checks. -/
def transfer (s : Store) (fromId toId : Nat) (amount : Rat) (f : TransferFail) :
    TransferResult :=
  if amount ≤ 0 then { status := 400, scope := none, store := s }
  else
    match findEnvelope s fromId, findEnvelope s toId with
    | some fe, some te =>
      if fe.balance < amount then
        { status := 400, scope := some .rolledBack, store := s }
      else
        match f with
        | .atSaveFrom => { status := 500, scope := some .opened, store := s }
        | .atSaveTo => { status := 500, scope := some .opened, store := s }
        | .atCommit => { status := 500, scope := some .opened, store := s }
        | .ok =>
          let s1 := saveEnvelope s { fe with balance := fe.balance - amount }
          let s2 := saveEnvelope s1 { te with balance := te.balance + amount }
          { status := 200, scope := some .committed, store := s2 }
    | _, _ => { status := 404, scope := some .rolledBack, store := s }

/-- One balance-affecting API call, with the arguments its route reads from
the request (and the key the store would assign to a created row). -/
inductive Op where
  | createEnv (newId : Nat) (name : String) (balance : Rat)
  | updateEnv (i : Nat) (name : Option String) (balance : Option Rat)
  | createTxn (newId : Nat) (date : Int) (amount : Rat) (recipient : String)
      (envelopeId : Nat)
  | deleteTxn (i : Nat)
  | doTransfer (fromId toId : Nat) (amount : Rat)
deriving Repr, DecidableEq

/-- Did `POST /envelopes` succeed (201)? -/
def envCreateOk : CreateEnvResult → Bool
  | .created _ => true
  | _ => false

/-- Did `PUT /envelopes/:id` succeed (200)? -/
def envUpdateOk : UpdateEnvResult → Bool
  | .updated _ => true
  | _ => false

/-- Did `POST /transactions` succeed (201)? -/
def txnCreateOk : CreateTxnResult → Bool
  | .created _ => true
  | _ => false

/-- Did `DELETE /transactions/:id` succeed (200)? -/
def txnDeleteOk : DeleteTxnResult → Bool
  | .deleted => true
  | _ => false

/-- Run one operation through its route handler (no injected persistence
failure); the `Bool` says whether the handler reported success (2xx). -/
def applyOp (s : Store) (op : Op) : Bool × Store :=
  match op with
  | .createEnv newId name balance =>
    (envCreateOk (createEnvelope s newId name balance).1,
     (createEnvelope s newId name balance).2)
  | .updateEnv i name balance =>
    (envUpdateOk (updateEnvelope s i name balance).1,
     (updateEnvelope s i name balance).2)
  | .createTxn newId date amount recipient envelopeId =>
    (txnCreateOk
      (createTransaction s newId date (.num amount) recipient envelopeId .ok).1,
     (createTransaction s newId date (.num amount) recipient envelopeId .ok).2)
  | .deleteTxn i =>
    (txnDeleteOk (deleteTransaction s i).1, (deleteTransaction s i).2)
  | .doTransfer fromId toId amount =>
    ((transfer s fromId toId amount .ok).status = 200,
     (transfer s fromId toId amount .ok).store)

/-- Run a sequence of operations; the `Bool` is `true` when every operation
in the sequence individually succeeded. -/
def runOps (s : Store) (ops : List Op) : Bool × Store :=
  match ops with
  | [] => (true, s)
  | op :: rest =>
    let (ok1, s1) := applyOp s op
    let (ok2, s2) := runOps s1 rest
    (ok1 && ok2, s2)

/-- All envelope balances in the store are nonnegative. -/
def balancesNonneg (s : Store) : Prop :=
  ∀ e ∈ s.envelopes, 0 ≤ e.balance

/-- All stored transaction amounts are nonnegative. -/
def txnAmountsNonneg (s : Store) : Prop :=
  ∀ t ∈ s.transactions, 0 ≤ t.amount

/-- The operation never asks the store to record a negative debit: a
`createTxn` carries a nonnegative amount. -/
def opAmountNonneg (op : Op) : Prop :=
  match op with
  | .createTxn _ _ amount _ _ => 0 ≤ amount
  | _ => True

/-- Total money held across all envelopes of the store. -/
def sumBalances (s : Store) : Rat :=
  (s.envelopes.map Envelope.balance).sum

section BasicLemmas

lemma findEnvelope_id_eq {s : Store} {i : Nat} {e : Envelope}
    (h : findEnvelope s i = some e) : e.id = i := by
  have h2 := List.find?_some h
  simpa using h2

lemma findEnvelope_mem {s : Store} {i : Nat} {e : Envelope}
    (h : findEnvelope s i = some e) : e ∈ s.envelopes :=
  List.mem_of_find?_eq_some h

lemma findTxn_id_eq {s : Store} {i : Nat} {t : Txn}
    (h : findTxn s i = some t) : t.id = i := by
  have h2 := List.find?_some h
  simpa using h2

lemma findTxn_mem {s : Store} {i : Nat} {t : Txn}
    (h : findTxn s i = some t) : t ∈ s.transactions :=
  List.mem_of_find?_eq_some h

lemma mem_save {l : List Envelope} {e' x : Envelope}
    (h : x ∈ l.map (fun y => if y.id = e'.id then e' else y)) :
    x = e' ∨ x ∈ l := by
  rcases List.mem_map.1 h with ⟨a, ha, hax⟩
  by_cases hc : a.id = e'.id
  · rw [if_pos hc] at hax
    exact Or.inl hax.symm
  · rw [if_neg hc] at hax
    exact Or.inr (hax ▸ ha)

lemma mem_saveEnvelope {s : Store} {e' x : Envelope}
    (h : x ∈ (saveEnvelope s e').envelopes) : x = e' ∨ x ∈ s.envelopes :=
  mem_save h

/-- Looking up the id just written finds the written row. -/
lemma find?_save_eq {l : List Envelope} {i : Nat} {env e' : Envelope}
    (h : l.find? (fun e => e.id = i) = some env) (hid : e'.id = i) :
    (l.map (fun x => if x.id = e'.id then e' else x)).find? (fun e => e.id = i)
      = some e' := by
  induction l with
  | nil => simp at h
  | cons x xs ih =>
    simp only [List.map_cons]
    by_cases hx : x.id = i
    · rw [if_pos (hx.trans hid.symm)]
      exact List.find?_cons_of_pos _ (by simpa using hid)
    · rw [List.find?_cons_of_neg _ (by simpa using hx)] at h
      rw [if_neg (fun hc : x.id = e'.id => hx (hc.trans hid))]
      rw [List.find?_cons_of_neg _ (by simpa using hx)]
      exact ih h

/-- Writing one row does not disturb lookups of a different id. -/
lemma find?_save_ne {l : List Envelope} {i : Nat} {e' : Envelope}
    (hid : ¬ e'.id = i) :
    (l.map (fun x => if x.id = e'.id then e' else x)).find? (fun e => e.id = i)
      = l.find? (fun e => e.id = i) := by
  induction l with
  | nil => rfl
  | cons x xs ih =>
    simp only [List.map_cons]
    by_cases hc : x.id = e'.id
    · rw [if_pos hc]
      rw [List.find?_cons_of_neg _ (by simpa using hid),
        List.find?_cons_of_neg _
          (by simpa using fun hxi : x.id = i => hid (hc.symm.trans hxi))]
      exact ih
    · rw [if_neg hc]
      by_cases hxi : x.id = i
      · rw [List.find?_cons_of_pos _ (by simpa using hxi),
          List.find?_cons_of_pos _ (by simpa using hxi)]
      · rw [List.find?_cons_of_neg _ (by simpa using hxi),
          List.find?_cons_of_neg _ (by simpa using hxi)]
        exact ih

lemma findEnvelope_saveEnvelope_eq {s : Store} {i : Nat} {env e' : Envelope}
    (h : findEnvelope s i = some env) (hid : e'.id = i) :
    findEnvelope (saveEnvelope s e') i = some e' :=
  find?_save_eq h hid

lemma findEnvelope_saveEnvelope_ne {s : Store} {i : Nat} {e' : Envelope}
    (hid : ¬ e'.id = i) :
    findEnvelope (saveEnvelope s e') i = findEnvelope s i :=
  find?_save_ne hid

/-- Overwriting a row it does not hold leaves a list unchanged. -/
lemma save_map_of_not_mem {l : List Envelope} {e' : Envelope}
    (h : ∀ y ∈ l, ¬ y.id = e'.id) :
    l.map (fun x => if x.id = e'.id then e' else x) = l := by
  induction l with
  | nil => rfl
  | cons x xs ih =>
    simp only [List.map_cons]
    rw [if_neg (h x (List.mem_cons_self x xs)),
      ih (fun y hy => h y (List.mem_cons_of_mem x hy))]

/-- `saveEnvelope` does not change the sequence of row ids. -/
lemma save_map_id (l : List Envelope) (e' : Envelope) :
    (l.map (fun x => if x.id = e'.id then e' else x)).map Envelope.id
      = l.map Envelope.id := by
  induction l with
  | nil => rfl
  | cons x xs ih =>
    simp only [List.map_cons, ih]
    by_cases hc : x.id = e'.id
    · rw [if_pos hc, hc]
    · rw [if_neg hc]

/-- When row ids are distinct, overwriting the row an id lookup found
changes the total of the balances by the difference at that row. -/
lemma sum_save {l : List Envelope} {i : Nat} {env e' : Envelope}
    (hnd : (l.map Envelope.id).Nodup)
    (h : l.find? (fun e => e.id = i) = some env) (hid : e'.id = i) :
    ((l.map (fun x => if x.id = e'.id then e' else x)).map Envelope.balance).sum
      = (l.map Envelope.balance).sum - env.balance + e'.balance := by
  induction l with
  | nil => simp at h
  | cons x xs ih =>
    rw [List.map_cons, List.nodup_cons] at hnd
    by_cases hx : x.id = i
    · rw [List.find?_cons_of_pos _ (by simpa using hx)] at h
      injection h with h
      subst h
      simp only [List.map_cons, if_pos (hx.trans hid.symm)]
      rw [save_map_of_not_mem (fun y hy hyid => hnd.1 (by
        have hxy : x.id = y.id := (hx.trans hid.symm).trans hyid.symm
        rw [hxy]
        exact List.mem_map_of_mem Envelope.id hy))]
      simp only [List.map_cons, List.sum_cons]
      ring
    · rw [List.find?_cons_of_neg _ (by simpa using hx)] at h
      simp only [List.map_cons,
        if_neg (fun hc : x.id = e'.id => hx (hc.trans hid)), List.sum_cons,
        ih hnd.2 h]
      ring

end BasicLemmas

/-- C9: for every `envelopeId`, `listByEnvelope` returns exactly the
transactions whose `envelopeId` equals the given id, ordered by `date`
descending (most recent first). -/
theorem C9_listByEnvelope_exact_sorted (s : Store) (envelopeId : Nat) :
    (∀ t, t ∈ listByEnvelope s envelopeId ↔
      (t ∈ s.transactions ∧ t.envelopeId = envelopeId))
    ∧ List.Perm (listByEnvelope s envelopeId)
        (s.transactions.filter (fun t => t.envelopeId = envelopeId))
    ∧ List.Sorted dateDesc (listByEnvelope s envelopeId) := by
  refine ⟨fun t => ?_, List.perm_insertionSort dateDesc _,
    List.sorted_insertionSort dateDesc _⟩
  unfold listByEnvelope
  rw [List.mem_insertionSort, List.mem_filter]
  simp

/-- C10: a transaction create request whose `envelopeId` is `0` (the falsy
numeric id) is rejected as InvalidInput (400) with the store untouched,
regardless of what the store holds and of which persistence call would
fail — so it is never answered with NotFound and nothing is persisted. -/
theorem C10_create_falsy_envelopeId (s : Store) (newId : Nat) (date : Int)
    (amount : JsVal) (recipient : String) (f : TxnFail) :
    createTransaction s newId date amount recipient 0 f
      = (CreateTxnResult.badRequest, s) := by
  cases amount with
  | num a => simp [createTransaction]
  | str sv => rfl
  | undef => rfl

/-- C6: a well-formed transfer whose amount strictly exceeds the source
envelope's balance (both envelopes existing) fails with InsufficientFunds
(HTTP 400, scope rolled back) and leaves the store — hence both balances —
unchanged, whatever persistence call would have failed later. -/
theorem C6_transfer_insufficient (s : Store) (fromId toId : Nat) (amount : Rat)
    (fe te : Envelope) (f : TransferFail)
    (hfe : findEnvelope s fromId = some fe)
    (hte : findEnvelope s toId = some te)
    (hpos : 0 < amount)
    (hins : fe.balance < amount) :
    transfer s fromId toId amount f =
      { status := 400, scope := some .rolledBack, store := s } := by
  unfold transfer
  rw [if_neg (not_le.mpr hpos), hfe, hte]
  simp [hins]

/-- Witness for C6 at the spec's own scenario: transfer of 60 from A
(balance 50) to B (balance 10) fails with 400 and changes nothing. -/
theorem C6_witness :
    transfer ⟨[⟨1, "A", 50⟩, ⟨2, "B", 10⟩], []⟩ 1 2 60 .ok =
      { status := 400, scope := some .rolledBack,
        store := ⟨[⟨1, "A", 50⟩, ⟨2, "B", 10⟩], []⟩ } :=
  C6_transfer_insufficient _ 1 2 60 ⟨1, "A", 50⟩ ⟨2, "B", 10⟩ .ok
    (by decide) (by decide) (by norm_num) (by norm_num)

lemma findEnvelope_insertTxn (s : Store) (t : Txn) (i : Nat) :
    findEnvelope (insertTxn s t) i = findEnvelope s i := rfl

lemma findEnvelope_removeTxn (s : Store) (j i : Nat) :
    findEnvelope (removeTxn s j) i = findEnvelope s i := rfl

/-- C7: a transaction create request with a numeric amount at most the
envelope's balance, a non-empty recipient and a resolvable (nonzero)
envelopeId answers 201 with the created transaction carrying exactly those
fields, reduces that envelope's stored balance by exactly the amount, and
appends exactly one new transaction row. -/
theorem C7_create_success (s : Store) (newId : Nat) (date : Int)
    (amount : Rat) (recipient : String) (envelopeId : Nat) (env : Envelope)
    (henv : findEnvelope s envelopeId = some env)
    (hrec : ¬ recipient = "")
    (hid : ¬ envelopeId = 0)
    (hamt : amount ≤ env.balance) :
    (createTransaction s newId date (.num amount) recipient envelopeId .ok).1
        = CreateTxnResult.created ⟨newId, date, amount, recipient, envelopeId⟩
    ∧ findEnvelope
        (createTransaction s newId date (.num amount) recipient envelopeId .ok).2
        envelopeId = some ⟨env.id, env.name, env.balance - amount⟩
    ∧ (createTransaction s newId date (.num amount) recipient envelopeId .ok).2.transactions
        = s.transactions ++ [⟨newId, date, amount, recipient, envelopeId⟩] := by
  have hcond : ¬ (recipient = "" ∨ envelopeId = 0) := by
    push_neg
    exact ⟨hrec, hid⟩
  have hnotlt : ¬ env.balance < amount := not_lt.mpr hamt
  simp only [createTransaction, henv, if_neg hcond, if_neg hnotlt]
  refine ⟨trivial, ?_, ?_⟩
  · rw [findEnvelope_insertTxn]
    apply findEnvelope_saveEnvelope_eq henv
    show env.id = envelopeId
    exact findEnvelope_id_eq henv
  · simp [insertTxn, saveEnvelope]

/-- Witness for C7: envelope 1 with balance 100, create of 30 for
"Target" answers 201, leaves balance 70 and exactly one stored row. -/
theorem C7_witness :
    (createTransaction ⟨[⟨1, "A", 100⟩], []⟩ 9 0 (.num 30) "Target" 1 .ok).1
        = CreateTxnResult.created ⟨9, 0, 30, "Target", 1⟩
    ∧ findEnvelope (createTransaction ⟨[⟨1, "A", 100⟩], []⟩ 9 0 (.num 30) "Target" 1 .ok).2 1
        = some ⟨1, "A", 70⟩
    ∧ (createTransaction ⟨[⟨1, "A", 100⟩], []⟩ 9 0 (.num 30) "Target" 1 .ok).2.transactions
        = [⟨9, 0, 30, "Target", 1⟩] := by
  have h := C7_create_success ⟨[⟨1, "A", 100⟩], []⟩ 9 0 30 "Target" 1 ⟨1, "A", 100⟩
    (by decide) (by decide) (by decide) (by norm_num)
  refine ⟨h.1, ?_, by simpa using h.2.2⟩
  rw [h.2.1]
  norm_num

/-- C8: deleting an existing transaction whose envelope exists answers 200,
raises that envelope's stored balance by exactly the transaction's amount,
removes exactly that transaction row (the rest a permutation of the old
rows), and a second delete of the same id answers 404 NotFound with the
store unchanged. -/
theorem C8_delete_transaction (s : Store) (txnId : Nat) (t : Txn) (env : Envelope)
    (ht : findTxn s txnId = some t)
    (henv : findEnvelope s t.envelopeId = some env)
    (hone : s.transactions.filter (fun x => x.id = txnId) = [t]) :
    (deleteTransaction s txnId).1 = DeleteTxnResult.deleted
    ∧ findEnvelope (deleteTransaction s txnId).2 t.envelopeId
        = some ⟨env.id, env.name, env.balance + t.amount⟩
    ∧ List.Perm s.transactions (t :: (deleteTransaction s txnId).2.transactions)
    ∧ deleteTransaction (deleteTransaction s txnId).2 txnId
        = (DeleteTxnResult.txnNotFound, (deleteTransaction s txnId).2) := by
  simp only [deleteTransaction, ht, henv]
  refine ⟨trivial, ?_, ?_, ?_⟩
  · rw [findEnvelope_removeTxn]
    apply findEnvelope_saveEnvelope_eq henv
    show env.id = t.envelopeId
    exact findEnvelope_id_eq henv
  · have hperm := (List.filter_append_perm (fun x => x.id = txnId) s.transactions).symm
    rw [hone] at hperm
    refine hperm.trans ?_
    apply List.Perm.cons
    show List.Perm (s.transactions.filter fun x => !decide (x.id = txnId)) _
    have : (removeTxn (saveEnvelope s ⟨env.id, env.name, env.balance + t.amount⟩) txnId).transactions
        = s.transactions.filter (fun x => decide ¬ x.id = txnId) := rfl
    rw [this]
    simp only [decide_not]
    exact List.Perm.refl _
  · have hnone : findTxn (removeTxn (saveEnvelope s ⟨env.id, env.name, env.balance + t.amount⟩) txnId) txnId = none := by
      apply List.find?_eq_none.mpr
      intro a ha
      have := (List.mem_filter.mp ha).2
      simpa using this
    simp only [deleteTransaction, hnone]

/-- Witness for C8 at the spec's own scenario: envelope at balance 70 with a
stored transaction of 30; deleting it restores 100, empties the rows, and a
second delete answers 404. -/
theorem C8_witness :
    (deleteTransaction ⟨[⟨1, "A", 70⟩], [⟨5, 0, 30, "x", 1⟩]⟩ 5).1 = DeleteTxnResult.deleted
    ∧ findEnvelope (deleteTransaction ⟨[⟨1, "A", 70⟩], [⟨5, 0, 30, "x", 1⟩]⟩ 5).2 1
        = some ⟨1, "A", 100⟩
    ∧ List.Perm ([⟨5, 0, 30, "x", 1⟩] : List Txn)
        (⟨5, 0, 30, "x", 1⟩ :: (deleteTransaction ⟨[⟨1, "A", 70⟩], [⟨5, 0, 30, "x", 1⟩]⟩ 5).2.transactions)
    ∧ deleteTransaction (deleteTransaction ⟨[⟨1, "A", 70⟩], [⟨5, 0, 30, "x", 1⟩]⟩ 5).2 5
        = (DeleteTxnResult.txnNotFound,
           (deleteTransaction ⟨[⟨1, "A", 70⟩], [⟨5, 0, 30, "x", 1⟩]⟩ 5).2) := by
  have h := C8_delete_transaction ⟨[⟨1, "A", 70⟩], [⟨5, 0, 30, "x", 1⟩]⟩ 5
    ⟨5, 0, 30, "x", 1⟩ ⟨1, "A", 70⟩ (by decide) (by decide) (by decide)
  refine ⟨h.1, ?_, h.2.2.1, h.2.2.2⟩
  rw [h.2.1]
  norm_num

/-- C5 counterexample: the claim says a negative amount is rejected as
InvalidInput (400) with nothing persisted; the code accepts it — a create
with amount -5 against a balance of 10 answers 201, persists a transaction
with the negative amount, and raises the balance to 15. -/
theorem C5_counterexample :
    createTransaction ⟨[⟨1, "Bills", 10⟩], []⟩ 3 0 (.num (-5)) "x" 1 .ok
      = (CreateTxnResult.created ⟨3, 0, -5, "x", 1⟩,
         ⟨[⟨1, "Bills", 15⟩], [⟨3, 0, -5, "x", 1⟩]⟩)
    ∧ ((-5 : Rat) < 0)
    ∧ ¬ createTransaction ⟨[⟨1, "Bills", 10⟩], []⟩ 3 0 (.num (-5)) "x" 1 .ok
        = (CreateTxnResult.badRequest, ⟨[⟨1, "Bills", 10⟩], []⟩) := by
  refine ⟨?_, by norm_num, ?_⟩
  · norm_num +decide [createTransaction, findEnvelope, saveEnvelope, insertTxn]
  · intro hbad
    rw [Prod.ext_iff] at hbad
    have h1 : (createTransaction ⟨[⟨1, "Bills", 10⟩], []⟩ 3 0 (.num (-5)) "x" 1 .ok).1
        = CreateTxnResult.created ⟨3, 0, -5, "x", 1⟩ := by
      norm_num +decide [createTransaction, findEnvelope, saveEnvelope, insertTxn]
    rw [h1] at hbad
    exact absurd hbad.1 (by simp)

/-- C5 amended: only a non-numeric amount is rejected as InvalidInput (400)
with no transaction created and no balance change; a numeric amount — zero
or negative included — is never rejected as InvalidInput, so persisted
transactions may carry non-positive amounts. -/
theorem C5_amended :
    (∀ (s : Store) (newId : Nat) (date : Int) (amount : JsVal)
      (recipient : String) (envelopeId : Nat) (f : TxnFail),
      (∀ q : Rat, ¬ amount = JsVal.num q) →
      createTransaction s newId date amount recipient envelopeId f
        = (CreateTxnResult.badRequest, s))
    ∧ (∀ (s : Store) (newId : Nat) (date : Int) (a : Rat)
      (recipient : String) (envelopeId : Nat) (f : TxnFail),
      ¬ recipient = "" → ¬ envelopeId = 0 →
      ¬ (createTransaction s newId date (.num a) recipient envelopeId f).1
        = CreateTxnResult.badRequest) := by
  constructor
  · intro s newId date amount recipient envelopeId f hnn
    cases amount with
    | num a => exact absurd rfl (hnn a)
    | str sv => rfl
    | undef => rfl
  · intro s newId date a recipient envelopeId f hrec hid
    have hcond : ¬ (recipient = "" ∨ envelopeId = 0) := by
      push_neg
      exact ⟨hrec, hid⟩
    simp only [createTransaction, if_neg hcond]
    cases hfe : findEnvelope s envelopeId with
    | none => simp
    | some env =>
      by_cases hlt : env.balance < a
      · simp [hlt]
      · simp only [if_neg hlt]
        cases f <;> simp

/-- Witness for C5 amended: a string amount is rejected with the store
untouched; amount 0 is not rejected as InvalidInput. -/
theorem C5_amended_witness :
    createTransaction ⟨[⟨1, "Bills", 10⟩], []⟩ 3 0 (.str "abc") "x" 1 .ok
      = (CreateTxnResult.badRequest, ⟨[⟨1, "Bills", 10⟩], []⟩)
    ∧ ¬ (createTransaction ⟨[⟨1, "Bills", 10⟩], []⟩ 3 0 (.num 0) "x" 1 .ok).1
        = CreateTxnResult.badRequest :=
  ⟨C5_amended.1 ⟨[⟨1, "Bills", 10⟩], []⟩ 3 0 (.str "abc") "x" 1 .ok
      (fun q h => by cases h),
   C5_amended.2 ⟨[⟨1, "Bills", 10⟩], []⟩ 3 0 0 "x" 1 .ok
      (by decide) (by decide)⟩

/-- C2: the transaction-create route has no transaction scope, so when the
`Transaction.create` insert fails after `envelope.save()` succeeded, the
handler answers 500 while the store keeps the reduced balance (70 of 100)
with no transaction row — exactly the silent inconsistency the claim says
cannot be reached. -/
theorem C2_create_not_atomic :
    createTransaction ⟨[⟨1, "Rent", 100⟩], []⟩ 7 0 (.num 30) "shop" 1 .atTxnInsert
      = (CreateTxnResult.serverError, ⟨[⟨1, "Rent", 70⟩], []⟩)
    ∧ findEnvelope (createTransaction ⟨[⟨1, "Rent", 100⟩], []⟩ 7 0
        (.num 30) "shop" 1 .atTxnInsert).2 1 = some ⟨1, "Rent", 70⟩
    ∧ (createTransaction ⟨[⟨1, "Rent", 100⟩], []⟩ 7 0
        (.num 30) "shop" 1 .atTxnInsert).2.transactions = [] := by
  refine ⟨?_, ?_, ?_⟩ <;>
    norm_num +decide [createTransaction, findEnvelope, saveEnvelope]

/-- C3 counterexample: when the second save fails inside the scope, the
handler answers 500 but never calls rollback — the scope is left `opened`,
not `rolledBack` as the claim states. -/
theorem C3_counterexample :
    (transfer ⟨[⟨1, "A", 50⟩, ⟨2, "B", 10⟩], []⟩ 1 2 20 .atSaveTo).status = 500
    ∧ (transfer ⟨[⟨1, "A", 50⟩, ⟨2, "B", 10⟩], []⟩ 1 2 20 .atSaveTo).scope
        = some ScopeState.opened
    ∧ ¬ (transfer ⟨[⟨1, "A", 50⟩, ⟨2, "B", 10⟩], []⟩ 1 2 20 .atSaveTo).scope
        = some ScopeState.rolledBack := by
  refine ⟨?_, ?_, ?_⟩ <;>
    norm_num +decide [transfer, findEnvelope]

/-- C3 amended: if any persistence call fails after the transfer's scope
opens (either save, or the commit), the handler answers 500 and the scope
is never committed, so the durable store — hence both balances — is
unchanged; but the scope is left open rather than rolled back. -/
theorem C3_amended (s : Store) (fromId toId : Nat) (amount : Rat)
    (fe te : Envelope) (f : TransferFail)
    (hf : ¬ f = TransferFail.ok)
    (hfe : findEnvelope s fromId = some fe)
    (hte : findEnvelope s toId = some te)
    (hpos : 0 < amount)
    (hsuf : amount ≤ fe.balance) :
    transfer s fromId toId amount f =
      { status := 500, scope := some ScopeState.opened, store := s } := by
  unfold transfer
  rw [if_neg (not_le.mpr hpos), hfe, hte]
  have hnotlt : ¬ fe.balance < amount := not_lt.mpr hsuf
  cases f with
  | ok => exact absurd rfl hf
  | atSaveFrom => simp [hnotlt]
  | atSaveTo => simp [hnotlt]
  | atCommit => simp [hnotlt]

/-- Witness for C3 amended: a failing second save on a valid transfer of 20
from A (50) to B (10) answers 500, leaves the scope open and the store
unchanged. -/
theorem C3_amended_witness :
    transfer ⟨[⟨1, "A", 50⟩, ⟨2, "B", 10⟩], []⟩ 1 2 20 .atSaveTo =
      { status := 500, scope := some ScopeState.opened,
        store := ⟨[⟨1, "A", 50⟩, ⟨2, "B", 10⟩], []⟩ } :=
  C3_amended ⟨[⟨1, "A", 50⟩, ⟨2, "B", 10⟩], []⟩ 1 2 20 ⟨1, "A", 50⟩ ⟨2, "B", 10⟩
    .atSaveTo (by decide) (by decide) (by decide) (by norm_num) (by norm_num)

/-- C4 counterexample: a transfer from an envelope to itself is accepted
(status 200) and the second save overwrites the first, so the single
envelope's balance grows from 10 to 15 — the sum of balances is not
conserved when fromId = toId. -/
theorem C4_counterexample :
    (transfer ⟨[⟨1, "A", 10⟩], []⟩ 1 1 5 .ok).status = 200
    ∧ findEnvelope (transfer ⟨[⟨1, "A", 10⟩], []⟩ 1 1 5 .ok).store 1
        = some ⟨1, "A", 15⟩
    ∧ ¬ sumBalances (transfer ⟨[⟨1, "A", 10⟩], []⟩ 1 1 5 .ok).store
        = sumBalances ⟨[⟨1, "A", 10⟩], []⟩ := by
  refine ⟨?_, ?_, ?_⟩ <;>
    norm_num +decide [transfer, findEnvelope, saveEnvelope, sumBalances]

/-- C4 amended: for a valid transfer between two distinct envelopes (ids
distinct in the store, amount positive and covered by the source), the
transfer answers 200 and the sum of all envelope balances is conserved. -/
theorem C4_amended (s : Store) (fromId toId : Nat) (amount : Rat)
    (fe te : Envelope)
    (hnd : (s.envelopes.map Envelope.id).Nodup)
    (hne : ¬ fromId = toId)
    (hfe : findEnvelope s fromId = some fe)
    (hte : findEnvelope s toId = some te)
    (hpos : 0 < amount)
    (hsuf : amount ≤ fe.balance) :
    (transfer s fromId toId amount .ok).status = 200
    ∧ sumBalances (transfer s fromId toId amount .ok).store = sumBalances s := by
  have hnotlt : ¬ fe.balance < amount := not_lt.mpr hsuf
  have hfid := findEnvelope_id_eq hfe
  have htid := findEnvelope_id_eq hte
  have h1 : sumBalances (saveEnvelope s ⟨fe.id, fe.name, fe.balance - amount⟩)
      = sumBalances s - fe.balance + (fe.balance - amount) := by
    apply sum_save hnd hfe
    exact hfid
  have hs1 : findEnvelope (saveEnvelope s ⟨fe.id, fe.name, fe.balance - amount⟩) toId
      = some te := by
    have hnid : ¬ (Envelope.mk fe.id fe.name (fe.balance - amount)).id = toId := by
      show ¬ fe.id = toId
      rw [hfid]
      exact hne
    rw [findEnvelope_saveEnvelope_ne hnid]
    exact hte
  have hnd1 : ((saveEnvelope s ⟨fe.id, fe.name, fe.balance - amount⟩).envelopes.map
      Envelope.id).Nodup := by
    show ((s.envelopes.map _).map Envelope.id).Nodup
    rw [save_map_id]
    exact hnd
  have h2 : sumBalances (saveEnvelope (saveEnvelope s ⟨fe.id, fe.name, fe.balance - amount⟩)
        ⟨te.id, te.name, te.balance + amount⟩)
      = sumBalances (saveEnvelope s ⟨fe.id, fe.name, fe.balance - amount⟩)
        - te.balance + (te.balance + amount) := by
    apply sum_save hnd1 hs1
    exact htid
  unfold transfer
  rw [if_neg (not_le.mpr hpos), hfe, hte]
  refine ⟨by simp [hnotlt], ?_⟩
  simp only [if_neg hnotlt]
  show sumBalances (saveEnvelope (saveEnvelope s ⟨fe.id, fe.name, fe.balance - amount⟩)
    ⟨te.id, te.name, te.balance + amount⟩) = sumBalances s
  rw [h2, h1]
  ring

/-- Witness for C4 amended: transferring 20 from A (50) to B (10) answers
200 and conserves the total. -/
theorem C4_amended_witness :
    (transfer ⟨[⟨1, "A", 50⟩, ⟨2, "B", 10⟩], []⟩ 1 2 20 .ok).status = 200
    ∧ sumBalances (transfer ⟨[⟨1, "A", 50⟩, ⟨2, "B", 10⟩], []⟩ 1 2 20 .ok).store
        = sumBalances ⟨[⟨1, "A", 50⟩, ⟨2, "B", 10⟩], []⟩ :=
  C4_amended ⟨[⟨1, "A", 50⟩, ⟨2, "B", 10⟩], []⟩ 1 2 20 ⟨1, "A", 50⟩ ⟨2, "B", 10⟩
    (by decide) (by decide) (by decide) (by decide) (by norm_num) (by norm_num)

/-- Writing a row with a nonnegative balance preserves nonnegativity of all
balances. -/
lemma balancesNonneg_save {s : Store} {e : Envelope}
    (hb : balancesNonneg s) (he : 0 ≤ e.balance) :
    balancesNonneg (saveEnvelope s e) := by
  intro x hx
  rcases mem_saveEnvelope hx with h | h
  · rw [h]
    exact he
  · exact hb x h

/-- One handler step preserves both store invariants, provided a transaction
create carries a nonnegative amount. -/
lemma invariants_preserved (s : Store) (op : Op)
    (hb : balancesNonneg s) (ht : txnAmountsNonneg s) (hop : opAmountNonneg op) :
    balancesNonneg (applyOp s op).2 ∧ txnAmountsNonneg (applyOp s op).2 := by
  cases op with
  | createEnv newId name balance =>
    show balancesNonneg (createEnvelope s newId name balance).2
      ∧ txnAmountsNonneg (createEnvelope s newId name balance).2
    simp only [createEnvelope]
    by_cases hc : name = "" ∨ balance < 0
    · simp only [if_pos hc]
      exact ⟨hb, ht⟩
    · simp only [if_neg hc]
      push_neg at hc
      refine ⟨?_, ht⟩
      intro x hx
      rcases List.mem_append.mp hx with h | h
      · exact hb x h
      · rw [List.mem_singleton.mp h]
        exact hc.2
  | updateEnv i name balance =>
    show balancesNonneg (updateEnvelope s i name balance).2
      ∧ txnAmountsNonneg (updateEnvelope s i name balance).2
    simp only [updateEnvelope]
    cases hfe : findEnvelope s i with
    | none => exact ⟨hb, ht⟩
    | some env =>
      cases balance with
      | none => exact ⟨balancesNonneg_save hb (hb env (findEnvelope_mem hfe)), ht⟩
      | some b =>
        by_cases hbneg : b < 0
        · simp only [if_pos hbneg]
          exact ⟨hb, ht⟩
        · simp only [if_neg hbneg]
          exact ⟨balancesNonneg_save hb (not_lt.mp hbneg), ht⟩
  | createTxn newId date amount recipient envelopeId =>
    show balancesNonneg
        (createTransaction s newId date (.num amount) recipient envelopeId .ok).2
      ∧ txnAmountsNonneg
        (createTransaction s newId date (.num amount) recipient envelopeId .ok).2
    simp only [createTransaction]
    by_cases hc : recipient = "" ∨ envelopeId = 0
    · simp only [if_pos hc]
      exact ⟨hb, ht⟩
    · simp only [if_neg hc]
      cases hfe : findEnvelope s envelopeId with
      | none => exact ⟨hb, ht⟩
      | some env =>
        by_cases hlt : env.balance < amount
        · simp only [if_pos hlt]
          exact ⟨hb, ht⟩
        · simp only [if_neg hlt]
          constructor
          · exact balancesNonneg_save hb (by
              show (0 : Rat) ≤ env.balance - amount
              have := not_lt.mp hlt
              linarith)
          · intro x hx
            rcases List.mem_append.mp hx with h | h
            · exact ht x h
            · rw [List.mem_singleton.mp h]
              exact hop
  | deleteTxn i =>
    show balancesNonneg (deleteTransaction s i).2
      ∧ txnAmountsNonneg (deleteTransaction s i).2
    cases hft : findTxn s i with
    | none =>
      simp only [deleteTransaction, hft]
      exact ⟨hb, ht⟩
    | some t =>
      cases hfe : findEnvelope s t.envelopeId with
      | none =>
        simp only [deleteTransaction, hft, hfe]
        exact ⟨hb, ht⟩
      | some env =>
        simp only [deleteTransaction, hft, hfe]
        constructor
        · exact balancesNonneg_save hb (by
            show (0 : Rat) ≤ env.balance + t.amount
            have h1 := hb env (findEnvelope_mem hfe)
            have h2 := ht t (findTxn_mem hft)
            linarith)
        · intro x hx
          exact ht x (List.mem_of_mem_filter hx)
  | doTransfer fromId toId amount =>
    show balancesNonneg (transfer s fromId toId amount .ok).store
      ∧ txnAmountsNonneg (transfer s fromId toId amount .ok).store
    simp only [transfer]
    by_cases hneg : amount ≤ 0
    · simp only [if_pos hneg]
      exact ⟨hb, ht⟩
    · simp only [if_neg hneg]
      cases hfe : findEnvelope s fromId with
      | none => cases hte : findEnvelope s toId <;> exact ⟨hb, ht⟩
      | some fe =>
        cases hte : findEnvelope s toId with
        | none => exact ⟨hb, ht⟩
        | some te =>
          by_cases hlt : fe.balance < amount
          · simp only [if_pos hlt]
            exact ⟨hb, ht⟩
          · simp only [if_neg hlt]
            refine ⟨?_, ht⟩
            apply balancesNonneg_save
            · apply balancesNonneg_save hb
              show (0 : Rat) ≤ fe.balance - amount
              have := not_lt.mp hlt
              linarith
            · show (0 : Rat) ≤ te.balance + amount
              have h1 := hb te (findEnvelope_mem hte)
              have h2 := not_le.mp hneg
              linarith

/-- Invariant preservation extended over a whole operation sequence. -/
lemma runOps_invariants (ops : List Op) (s : Store)
    (hb : balancesNonneg s) (ht : txnAmountsNonneg s)
    (hops : ∀ op ∈ ops, opAmountNonneg op) :
    balancesNonneg (runOps s ops).2 ∧ txnAmountsNonneg (runOps s ops).2 := by
  induction ops generalizing s with
  | nil => exact ⟨hb, ht⟩
  | cons op rest ih =>
    have h1 := invariants_preserved s op hb ht (hops op (List.mem_cons_self op rest))
    have h2 := ih (applyOp s op).2 h1.1 h1.2
      (fun o ho => hops o (List.mem_cons_of_mem op ho))
    show balancesNonneg ((applyOp s op).1 && (runOps (applyOp s op).2 rest).1,
        (runOps (applyOp s op).2 rest).2).2 ∧ _
    exact h2

/-- C1 amended: starting from a store whose balances and stored transaction
amounts are nonnegative, every sequence of operations run through the
route handlers in which each transaction create carries a nonnegative
amount leaves every envelope's balance nonnegative — in particular
transaction delete, which adds the stored (nonnegative) amount back, never
drives a balance below zero. -/
theorem C1_amended (s : Store) (ops : List Op)
    (hb : balancesNonneg s) (ht : txnAmountsNonneg s)
    (hops : ∀ op ∈ ops, opAmountNonneg op) :
    balancesNonneg (runOps s ops).2 :=
  (runOps_invariants ops s hb ht hops).1

/-- Witness for C1 amended on a concrete five-step sequence from the empty
store. -/
theorem C1_amended_witness :
    balancesNonneg (runOps ⟨[], []⟩
      [.createEnv 1 "A" 100, .createTxn 1 0 30 "x" 1, .deleteTxn 1,
       .createEnv 2 "B" 0, .doTransfer 1 2 25]).2 :=
  C1_amended ⟨[], []⟩ _
    (by intro e he; simp at he)
    (by intro t ht2; simp at ht2)
    (by
      intro op hop
      simp only [List.mem_cons, List.not_mem_nil, or_false] at hop
      rcases hop with h | h | h | h | h <;> subst h <;> simp [opAmountNonneg])

/-- C1 counterexample: the unrestricted claim fails — a sequence of four
individually successful operations (create envelope at 0, create a
transaction with amount -5 which raises the balance to 5, update the
balance back to 0, then delete the transaction, which adds the stored -5)
leaves envelope 1 at balance -5 < 0. -/
theorem C1_counterexample :
    (runOps ⟨[], []⟩
      [.createEnv 1 "A" 0, .createTxn 1 0 (-5) "x" 1,
       .updateEnv 1 none (some 0), .deleteTxn 1]).1 = true
    ∧ findEnvelope (runOps ⟨[], []⟩
        [.createEnv 1 "A" 0, .createTxn 1 0 (-5) "x" 1,
         .updateEnv 1 none (some 0), .deleteTxn 1]).2 1 = some ⟨1, "A", -5⟩
    ∧ ¬ balancesNonneg (runOps ⟨[], []⟩
        [.createEnv 1 "A" 0, .createTxn 1 0 (-5) "x" 1,
         .updateEnv 1 none (some 0), .deleteTxn 1]).2 := by
  refine ⟨?_, ?_, ?_⟩
  · norm_num +decide [runOps, applyOp, createEnvelope, createTransaction,
      updateEnvelope, deleteTransaction, findEnvelope, findTxn, saveEnvelope,
      insertTxn, removeTxn, envCreateOk, envUpdateOk, txnCreateOk, txnDeleteOk]
  · norm_num +decide [runOps, applyOp, createEnvelope, createTransaction,
      updateEnvelope, deleteTransaction, findEnvelope, findTxn, saveEnvelope,
      insertTxn, removeTxn, envCreateOk, envUpdateOk, txnCreateOk, txnDeleteOk]
  · intro hball
    have hmem : (⟨1, "A", -5⟩ : Envelope) ∈ (runOps ⟨[], []⟩
        [.createEnv 1 "A" 0, .createTxn 1 0 (-5) "x" 1,
         .updateEnv 1 none (some 0), .deleteTxn 1]).2.envelopes := by
      norm_num +decide [runOps, applyOp, createEnvelope, createTransaction,
        updateEnvelope, deleteTransaction, findEnvelope, findTxn, saveEnvelope,
        insertTxn, removeTxn, envCreateOk, envUpdateOk, txnCreateOk, txnDeleteOk]
    have := hball _ hmem
    norm_num at this
